import Mathlib

/-!
Shallow embedding of the multi-scale scheduling and calendar engine of the
construction-gantt-chart application, together with theorems settling the
frozen specification claims.

The definitions mirror the TypeScript sources:
  * `src/lib/holidays.ts` — workday rules (`isNonWorkday`, `addWorkdays`);
  * `src/types` (part_000) — the data model and built-in defaults;
  * `src/components/chart/ChartCalendar` (part_003) — `timeSlots`,
    `updateScaleValue`, the start/end number inputs, the hour/minute
    inputs, `getTaskBarStyle`, `handleAddTask`;
  * `src/components/chart/TaskBar.tsx` — `getBarPosition`,
    `updateScaleValue` (clamping variant), `handleMouseMove`
    (move / resize-start / resize-end drag frames);
  * `src/components/chart/PrintPreview.tsx` — its `getTaskBarStyle`.

JavaScript numbers are modelled as `Int` where the program only ever handles
integers (schedule values, minutes, day offsets), and as `Rat` where real
division appears (pixel geometry).  Dates handed to the engine by the
`date-fns` library are modelled abstractly as a record carrying exactly the
observations the engine makes of them: the formatted `yyyy-MM-dd` string, the
day of the week, and whether the holiday library marks the date as a gazetted
national holiday.  Advancing a date day by day (`addDays(d, 1)`) is modelled
by a calendar function `Nat → CDate` indexed by day number.
-/

namespace Gantt

/-- A calendar date as observed by the engine: its ISO `yyyy-MM-dd` string,
its day of week (0 = Sunday … 6 = Saturday, as in JavaScript), and the
verdict of the external national-holiday lookup. -/
structure CDate where
  iso : String
  weekday : Nat
  holiday : Bool
deriving DecidableEq, Repr

/-- `isSaturday` from date-fns: day of week 6. -/
def CDate.isSaturday (d : CDate) : Bool := d.weekday == 6

/-- `isSunday` from date-fns: day of week 0. -/
def CDate.isSunday (d : CDate) : Bool := d.weekday == 0

/-- `isHoliday` from `holidays.ts`: delegates to the `@holiday-jp` lookup,
which the date model carries as a field. -/
def isHoliday (d : CDate) : Bool := d.holiday

/-- `WorkdaySettings` from `src/types`. -/
structure WorkdaySettings where
  skipSaturday : Bool
  skipSunday : Bool
  skipHolidays : Bool
  customHolidays : List String
  customWorkdays : List String
  showOnlyWorkdays : Bool
deriving DecidableEq, Repr

/-- `isNonWorkday` from `src/lib/holidays.ts`: the cascade of early returns,
custom workdays first, then custom holidays, Saturday, Sunday, national
holidays, default working. -/
def isNonWorkday (d : CDate) (settings : WorkdaySettings) : Bool :=
  let dateStr := d.iso
  if settings.customWorkdays.contains dateStr then false
  else if settings.customHolidays.contains dateStr then true
  else if settings.skipSaturday && d.isSaturday then true
  else if settings.skipSunday && d.isSunday then true
  else if settings.skipHolidays && isHoliday d then true
  else false

/-- `addWorkdays` from `src/lib/holidays.ts`, with the calendar abstracted as
`cal : Nat → CDate` (day index to date) and the unbounded `while` loop run on
explicit fuel: one unit of fuel per calendar day stepped over.  The loop
advances one day, increments the counter only when the new day is a working
day, and stops when the counter reaches `workdays`, returning the day that
produced the final increment.  `none` means the fuel ran out before the
counter reached `workdays`. -/
def addWorkdaysAux (cal : Nat → CDate) (settings : WorkdaySettings) :
    Nat → Nat → Nat → Option Nat
  | _, 0, current => some current
  | 0, _ + 1, _ => none
  | fuel + 1, k + 1, current =>
      let next := current + 1
      if isNonWorkday (cal next) settings then
        addWorkdaysAux cal settings fuel (k + 1) next
      else
        addWorkdaysAux cal settings fuel k next

/-- Entry point mirroring `addWorkdays(start, workdays, settings)`; `fuel`
bounds how many calendar days the loop may step over. -/
def addWorkdays (cal : Nat → CDate) (settings : WorkdaySettings)
    (fuel : Nat) (start workdays : Nat) : Option Nat :=
  addWorkdaysAux cal settings fuel workdays start

/-- Number of working days among the `fuel` calendar days
`start+1, …, start+fuel` (the days `addWorkdays` can visit). -/
def workingDaysAfter (cal : Nat → CDate) (settings : WorkdaySettings) :
    Nat → Nat → Nat
  | _, 0 => 0
  | start, fuel + 1 =>
      (if isNonWorkday (cal (start + 1)) settings then 0 else 1) +
        workingDaysAfter cal settings (start + 1) fuel

/-- The `timeSlots` loop body from ChartCalendar: `for (m = startMinutes;
m <= endMinutes; m += 5) slots.push(m)`, as a recursion on the remaining
distance. -/
def timeSlotsAux (endMinutes : Nat) (m : Nat) : List Nat :=
  if m ≤ endMinutes then m :: timeSlotsAux endMinutes (m + 5)
  else []
termination_by endMinutes + 1 - m
decreasing_by omega

/-- `timeSlots` from ChartCalendar (5-minute grid of the hour scale). -/
def timeSlots (startMinutes endMinutes : Nat) : List Nat :=
  timeSlotsAux endMinutes startMinutes

/-- `ViewScale` from `src/types`. -/
inductive ViewScale where
  | hour
  | day
  | week
  | month
deriving DecidableEq, Repr

/-- One scale's `{ start, end }` entry of a `ScaleBasedSchedule`.  The
source's `end` field is named `endV` because `end` is reserved in Lean. -/
structure Interval where
  start : Int
  endV : Int
deriving DecidableEq, Repr

/-- `ScaleBasedSchedule` from `src/types`: all four entries present. -/
structure ScaleBasedSchedule where
  hour : Interval
  day : Interval
  week : Interval
  month : Interval
deriving DecidableEq, Repr

/-- `DEFAULT_SCALE_SCHEDULE` from `src/types`. -/
def DEFAULT_SCALE_SCHEDULE : ScaleBasedSchedule :=
  { hour := ⟨480, 540⟩, day := ⟨1, 3⟩, week := ⟨1, 7⟩, month := ⟨1, 14⟩ }

/-- `HourScaleSettings` from `src/types`. -/
structure HourScaleSettings where
  startHour : Int
  endHour : Int
deriving DecidableEq, Repr

/-- `DEFAULT_HOUR_SCALE_SETTINGS` from `src/types` (8:00–18:00). -/
def DEFAULT_HOUR_SCALE_SETTINGS : HourScaleSettings := ⟨8, 18⟩

/-- `DayScaleSettings` from `src/types`. -/
structure DayScaleSettings where
  dayCount : Int
  weekCount : Int
  monthCount : Int
deriving DecidableEq, Repr

/-- `DEFAULT_DAY_SCALE_SETTINGS` from `src/types` (7 / 30 / 60 days). -/
def DEFAULT_DAY_SCALE_SETTINGS : DayScaleSettings := ⟨7, 30, 60⟩

/-- The scheduling-relevant fields of `Project` from `src/types`. -/
structure Project where
  viewScale : ViewScale
  hourScaleSettings : Option HourScaleSettings
  dayScaleSettings : Option DayScaleSettings
deriving DecidableEq, Repr

/-- `project.hourScaleSettings || DEFAULT_HOUR_SCALE_SETTINGS`. -/
def Project.hourSettings (p : Project) : HourScaleSettings :=
  p.hourScaleSettings.getD DEFAULT_HOUR_SCALE_SETTINGS

/-- `project.dayScaleSettings || DEFAULT_DAY_SCALE_SETTINGS`. -/
def Project.daySettings (p : Project) : DayScaleSettings :=
  p.dayScaleSettings.getD DEFAULT_DAY_SCALE_SETTINGS

/-- `startMinutes = hourSettings.startHour * 60`. -/
def Project.startMinutes (p : Project) : Int := p.hourSettings.startHour * 60

/-- `endMinutes = hourSettings.endHour * 60`. -/
def Project.endMinutes (p : Project) : Int := p.hourSettings.endHour * 60

/-- The `'start' | 'end'` field selector of the schedule update helpers. -/
inductive SchedField where
  | fStart
  | fEnd
deriving DecidableEq, Repr

/-- Read one field of an interval. -/
def Interval.fieldVal : Interval → SchedField → Int
  | iv, .fStart => iv.start
  | iv, .fEnd => iv.endV

/-- Replace one field of an interval, leaving the other untouched (the
`{ ...currentSchedule[scale], [field]: v }` spread). -/
def Interval.setField : Interval → SchedField → Int → Interval
  | iv, .fStart, v => { iv with start := v }
  | iv, .fEnd, v => { iv with endV := v }

/-- Dynamic-key read `schedule[scale]`. -/
def ScaleBasedSchedule.get : ScaleBasedSchedule → ViewScale → Interval
  | s, .hour => s.hour
  | s, .day => s.day
  | s, .week => s.week
  | s, .month => s.month

/-- Dynamic-key write `{ ...schedule, [scale]: iv }`. -/
def ScaleBasedSchedule.setScale :
    ScaleBasedSchedule → ViewScale → Interval → ScaleBasedSchedule
  | s, .hour, iv => { s with hour := iv }
  | s, .day, iv => { s with day := iv }
  | s, .week, iv => { s with week := iv }
  | s, .month, iv => { s with month := iv }

/-- The task's resolved interval on the project's active scale:
`(task.scaleSchedule || DEFAULT_SCALE_SCHEDULE)[project.viewScale]`. -/
def resolveIv (p : Project) (sched : Option ScaleBasedSchedule) : Interval :=
  (sched.getD DEFAULT_SCALE_SCHEDULE).get p.viewScale

/-- `getScaleValue(task, field)` shared by ChartCalendar, TaskBar and
PrintPreview: the resolved interval's field (the `??` fallback of the source
never fires in this model because every schedule entry is present). -/
def getScaleValue (p : Project) (sched : Option ScaleBasedSchedule)
    (f : SchedField) : Int :=
  (resolveIv p sched).fieldVal f

/-- `getMinValue()`: `startMinutes` on the hour scale, else 1. -/
def getMinValue (p : Project) : Int :=
  if p.viewScale = .hour then p.startMinutes else 1

/-- `getMaxValue()`: `endMinutes` on the hour scale, else the matching
day-count setting. -/
def getMaxValue (p : Project) : Int :=
  match p.viewScale with
  | .hour => p.endMinutes
  | .day => p.daySettings.dayCount
  | .week => p.daySettings.weekCount
  | .month => p.daySettings.monthCount

/-- The `getMaxValue() || 999` guard of ChartCalendar's number inputs:
a zero maximum is falsy in JavaScript and falls back to 999. -/
def maxOr999 (p : Project) : Int :=
  if getMaxValue p = 0 then 999 else getMaxValue p

/-- `Math.max(lo, Math.min(hi, v))`, the clamp idiom used throughout. -/
def clampVal (lo hi v : Int) : Int := max lo (min hi v)

/-- `Math.round(m / 5) * 5` from `hoursAndMinutesToMinutes` and the minutes
input.  `Math.round x = ⌊x + 1/2⌋` (halves round up), so
`Math.round(m/5) = ⌊(2m+5)/10⌋`. -/
def round5 (m : Int) : Int := ((2 * m + 5).fdiv 10) * 5

/-- `hoursAndMinutesToMinutes` from ChartCalendar. -/
def hoursAndMinutesToMinutes (hours minutes : Int) : Int :=
  hours * 60 + round5 minutes

/-- `minutesToHoursAndMinutes` from ChartCalendar: `Math.floor(minutes/60)`
and the JavaScript remainder `minutes % 60` (truncated, sign of dividend). -/
def minutesToHoursAndMinutes (minutes : Int) : Int × Int :=
  (minutes.fdiv 60, minutes.tmod 60)

/-- `updateScaleValue` from ChartCalendar (part_003): writes the raw value
into the active scale's field with no clamping of its own (call sites
clamp). -/
def updateScaleValueCC (p : Project) (sched : Option ScaleBasedSchedule)
    (f : SchedField) (v : Int) : Option ScaleBasedSchedule :=
  let currentSchedule := sched.getD DEFAULT_SCALE_SCHEDULE
  some (currentSchedule.setScale p.viewScale
    ((currentSchedule.get p.viewScale).setField f v))

/-- `updateScaleValue` from TaskBar.tsx: clamps the value to
`[getMinValue(), getMaxValue()]` before writing it. -/
def updateScaleValueTB (p : Project) (sched : Option ScaleBasedSchedule)
    (f : SchedField) (v : Int) : Option ScaleBasedSchedule :=
  let clampedValue := clampVal (getMinValue p) (getMaxValue p) v
  let currentSchedule := sched.getD DEFAULT_SCALE_SCHEDULE
  some (currentSchedule.setScale p.viewScale
    ((currentSchedule.get p.viewScale).setField f clampedValue))

/-- `handleMouseMove`'s cell-index-to-value conversion: minutes on the
5-minute grid for the hour scale, a 1-based day offset otherwise. -/
def candValue (p : Project) (cellIndex : Int) : Int :=
  if p.viewScale = .hour then p.startMinutes + cellIndex * 5 else cellIndex + 1

/-- The schedule-committing user operations, one constructor per distinct
commit path in the source.  Each op carries the project (active scale and
window settings) in effect when it runs.  The ChartCalendar inputs of the
first three constructors are rendered only under a scale condition
(`fieldUpd` when the active scale is not `hour`, the two hour edits when it
is), which theorems state as hypotheses. -/
inductive ChartOp where
  /-- Start/end number input of the day-based scales (ChartCalendar): the
  parsed value is clamped to `[getMinValue(), getMaxValue() || 999]` and
  written through `updateScaleValue`. -/
  | fieldUpd (p : Project) (f : SchedField) (v : Int)
  /-- Hour-scale hours input (ChartCalendar): the parsed hour is clamped to
  `[startHour, endHour]`, recombined with the current value's minutes via
  `hoursAndMinutesToMinutes`, and clamped to `[startMinutes, endMinutes]`. -/
  | hourEditHours (p : Project) (f : SchedField) (h : Int)
  /-- Hour-scale minutes input (ChartCalendar): the parsed minutes are
  rounded to a multiple of 5, clamped to `[0, 55]`, recombined with the
  current value's hours, and clamped to `[startMinutes, endMinutes]`. -/
  | hourEditMinutes (p : Project) (f : SchedField) (m : Int)
  /-- One pointer-move frame with `dragType === 'move'` (TaskBar). -/
  | dragMove (p : Project) (cellIndex : Int)
  /-- One pointer-move frame with `dragType === 'resize-start'` (TaskBar). -/
  | dragResizeStart (p : Project) (cellIndex : Int)
  /-- One pointer-move frame with `dragType === 'resize-end'` (TaskBar). -/
  | dragResizeEnd (p : Project) (cellIndex : Int)
deriving DecidableEq, Repr

/-- Commit semantics of one operation on a task's `scaleSchedule`.  In the
`dragMove` frame, the source uses the `dragStartValues` captured at
pointer-down; because every intermediate move frame rewrites both fields with
the captured duration unchanged, re-reading the current resolved interval at
each frame (as done here) commits exactly the same values. -/
def applyOp (sched : Option ScaleBasedSchedule) : ChartOp → Option ScaleBasedSchedule
  | .fieldUpd p f v =>
      updateScaleValueCC p sched f (clampVal (getMinValue p) (maxOr999 p) v)
  | .hourEditHours p f h =>
      let minutes := (minutesToHoursAndMinutes (getScaleValue p sched f)).2
      let clampedH := clampVal p.hourSettings.startHour p.hourSettings.endHour h
      let newMinutes := hoursAndMinutesToMinutes clampedH minutes
      updateScaleValueCC p sched f (clampVal p.startMinutes p.endMinutes newMinutes)
  | .hourEditMinutes p f m =>
      let hours := (minutesToHoursAndMinutes (getScaleValue p sched f)).1
      let clampedM := clampVal 0 55 (round5 m)
      let newMinutes := hoursAndMinutesToMinutes hours clampedM
      updateScaleValueCC p sched f (clampVal p.startMinutes p.endMinutes newMinutes)
  | .dragMove p cellIndex =>
      let newValue := candValue p cellIndex
      let iv := resolveIv p sched
      let duration := iv.endV - iv.start
      let newStart := clampVal (getMinValue p) (getMaxValue p - duration) newValue
      let currentSchedule := sched.getD DEFAULT_SCALE_SCHEDULE
      some (currentSchedule.setScale p.viewScale
        { start := newStart, endV := newStart + duration })
  | .dragResizeStart p cellIndex =>
      let newValue := candValue p cellIndex
      let currentEnd := getScaleValue p sched .fEnd
      if newValue < currentEnd ∧ getMinValue p ≤ newValue then
        updateScaleValueTB p sched .fStart newValue
      else sched
  | .dragResizeEnd p cellIndex =>
      let newValue := candValue p cellIndex
      let currentStart := getScaleValue p sched .fStart
      let increment : Int := if p.viewScale = .hour then 5 else 1
      let endValue := newValue + increment
      if currentStart < endValue ∧ endValue ≤ getMaxValue p then
        updateScaleValueTB p sched .fEnd endValue
      else sched

/-- Whether an operation is one of the three drag-frame commits of the
InteractionController (as opposed to a direct form-field edit). -/
def ChartOp.isDrag : ChartOp → Bool
  | .dragMove .. => true
  | .dragResizeStart .. => true
  | .dragResizeEnd .. => true
  | _ => false

/-- The project an operation runs under. -/
def ChartOp.proj : ChartOp → Project
  | .fieldUpd p .. => p
  | .hourEditHours p .. => p
  | .hourEditMinutes p .. => p
  | .dragMove p .. => p
  | .dragResizeStart p .. => p
  | .dragResizeEnd p .. => p

/-- `start ≤ end` for one interval. -/
abbrev goodIv (iv : Interval) : Prop := iv.start ≤ iv.endV

/-- `start ≤ end` on all four scales of the resolved schedule. -/
abbrev goodSched (sched : Option ScaleBasedSchedule) : Prop :=
  goodIv ((sched.getD DEFAULT_SCALE_SCHEDULE).hour) ∧
  goodIv ((sched.getD DEFAULT_SCALE_SCHEDULE).day) ∧
  goodIv ((sched.getD DEFAULT_SCALE_SCHEDULE).week) ∧
  goodIv ((sched.getD DEFAULT_SCALE_SCHEDULE).month)

/-- Both fields of the resolved hour interval are multiples of 5. -/
abbrev hourMult5 (sched : Option ScaleBasedSchedule) : Prop :=
  (sched.getD DEFAULT_SCALE_SCHEDULE).hour.start % 5 = 0 ∧
  (sched.getD DEFAULT_SCALE_SCHEDULE).hour.endV % 5 = 0

/-- Sane window settings for the active scale: the scale's minimum does not
exceed its maximum (true of the defaults and of any window with
`startHour ≤ endHour` and positive day counts). -/
abbrev validSettings (p : Project) : Prop := getMinValue p ≤ getMaxValue p

/-- The schedule-relevant part of `Task`. -/
structure Task where
  scaleSchedule : Option ScaleBasedSchedule
deriving DecidableEq, Repr

/-- The `scaleSchedule` computed for a newly added task by `handleAddTask`
(ChartCalendar): on the hour scale with at least one existing task, start at
the last task's hour end — where a zero end is falsy in JavaScript
(`lastSchedule.hour?.end || DEFAULT_SCALE_SCHEDULE.hour.end`) and falls back
to the default 540 — and end one hour later, other scales at their defaults;
otherwise `undefined`. -/
def handleAddTaskSchedule (p : Project) (tasks : List Task) :
    Option ScaleBasedSchedule :=
  match p.viewScale, tasks.getLast? with
  | .hour, some lastTask =>
      let lastSchedule := lastTask.scaleSchedule.getD DEFAULT_SCALE_SCHEDULE
      let lastEndTime := if lastSchedule.hour.endV = 0 then
          DEFAULT_SCALE_SCHEDULE.hour.endV
        else lastSchedule.hour.endV
      some { DEFAULT_SCALE_SCHEDULE with
             hour := { start := lastEndTime, endV := lastEndTime + 60 } }
  | _, _ => none

/-- Pixel geometry of a bar: the `left` offset and `width` of the style
object, as exact rationals. -/
structure BarGeom where
  left : ℚ
  width : ℚ
deriving DecidableEq, Repr

/-- `getBarPosition` from TaskBar.tsx. -/
def getBarPositionTB (scale : ViewScale) (startMinutes cellWidth : ℚ)
    (startValue endValue : ℚ) : BarGeom :=
  let startOffset : ℚ :=
    match scale with
    | .hour => (startValue - startMinutes) / 5
    | _ => startValue - 1
  let duration : ℚ :=
    match scale with
    | .hour => (endValue - startValue) / 5 + 1
    | _ => endValue - startValue + 1
  { left := max 0 startOffset * cellWidth,
    width := max 1 duration * cellWidth - 4 }

/-- `getTaskBarStyle` from ChartCalendar (part_003): same arithmetic but the
`left` offset is *not* clamped at zero. -/
def getTaskBarStyleCC (scale : ViewScale) (startMinutes cellWidth : ℚ)
    (startValue endValue : ℚ) : BarGeom :=
  let startOffset : ℚ :=
    match scale with
    | .hour => (startValue - startMinutes) / 5
    | _ => startValue - 1
  let duration : ℚ :=
    match scale with
    | .hour => (endValue - startValue) / 5 + 1
    | _ => endValue - startValue + 1
  { left := startOffset * cellWidth,
    width := max duration 1 * cellWidth - 4 }

/-- `getTaskBarStyle` from PrintPreview.tsx: clamped offset, gap constant 2. -/
def getTaskBarStylePP (scale : ViewScale) (startMinutes cellWidth : ℚ)
    (startValue endValue : ℚ) : BarGeom :=
  let startOffset : ℚ :=
    match scale with
    | .hour => (startValue - startMinutes) / 5
    | _ => startValue - 1
  let duration : ℚ :=
    match scale with
    | .hour => (endValue - startValue) / 5 + 1
    | _ => endValue - startValue + 1
  { left := max 0 startOffset * cellWidth,
    width := max 1 duration * cellWidth - 2 }

/-- `Math.floor(relativeX / cellWidth)` from `handleMouseMove`. -/
def cellIndexOf (relativeX cellWidth : ℚ) : Int := ⌊relativeX / cellWidth⌋

/-- The pixel-to-candidate conversion of `handleMouseMove`: floor cell index,
then `startMinutes + index*5` on the hour scale or `index + 1` otherwise. -/
def fromPosition (p : Project) (relativeX cellWidth : ℚ) : Int :=
  candValue p (cellIndexOf relativeX cellWidth)

/-- Modelled from the spec's clamping policy for the Hour scale (§4.3),
"value rounded to nearest multiple of 5, then bounded to
`[startMinutes, endMinutes]`" — stated only to compare against the code's
clamp, which does not round. -/
def specHourClamp (p : Project) (v : Int) : Int :=
  clampVal p.startMinutes p.endMinutes (round5 v)

/-- The scale condition under which an operation's input is rendered by the
UI: the plain number inputs only exist on the day-based scales (the hour
scale shows the hours/minutes pair instead). -/
def ChartOp.scaleOk : ChartOp → Bool
  | .fieldUpd p _ _ => p.viewScale != .hour
  | _ => true

/-- The claimed offset formula of §4.4 (shared by the per-view theorems):
`(start - startMinutes)/5` on the hour scale, `start - 1` otherwise. -/
def specOffset (scale : ViewScale) (startMinutes startValue : ℚ) : ℚ :=
  match scale with
  | .hour => (startValue - startMinutes) / 5
  | _ => startValue - 1

/-- The claimed duration formula of §4.4: `(end - start)/5 + 1` on the hour
scale, `end - start + 1` otherwise. -/
def specDuration (scale : ViewScale) (startValue endValue : ℚ) : ℚ :=
  match scale with
  | .hour => (endValue - startValue) / 5 + 1
  | _ => endValue - startValue + 1

/-!  Theorems.  Helper lemmas come first; each claim is then settled by one
theorem named after it (plus a closed witness or counterexample where the
claim calls for one). -/

/-- Unfolding `timeSlotsAux` once. -/
theorem timeSlotsAux_unfold (endMinutes m : Nat) :
    timeSlotsAux endMinutes m =
      if m ≤ endMinutes then m :: timeSlotsAux endMinutes (m + 5) else [] := by
  rw [timeSlotsAux]

/-- Closed form of the `timeSlots` loop when the distance is an exact number
of 5-minute steps. -/
theorem timeSlots_closed_form (k m : Nat) :
    timeSlotsAux (m + 5 * k) m = (List.range (k + 1)).map (fun i => m + 5 * i) := by
  induction k generalizing m with
  | zero =>
      rw [timeSlotsAux_unfold, if_pos (by omega), timeSlotsAux_unfold,
        if_neg (by omega)]
      simp [List.range_succ]
  | succ k ih =>
      rw [timeSlotsAux_unfold, if_pos (by omega),
        show m + 5 * (k + 1) = (m + 5) + 5 * k by omega]
      conv_rhs => rw [List.range_succ_eq_map, List.map_cons, List.map_map]
      rw [ih (m + 5)]
      have hfun : (fun i => (m + 5) + 5 * i) =
          ((fun i => m + 5 * i) ∘ Nat.succ) := by
        funext i
        simp only [Function.comp_apply]
        omega
      rw [hfun]
      simp

/-- `addWorkdays` with `workdays = 0` exits the loop immediately. -/
theorem addWorkdaysAux_zero (cal : Nat → CDate) (settings : WorkdaySettings)
    (fuel current : Nat) :
    addWorkdaysAux cal settings fuel 0 current = some current := by
  cases fuel <;> rfl

/-- Soundness of the `addWorkdays` loop: with at least `n ≥ 1` working days
among the next `fuel` calendar days, it returns a working day strictly after
the start. -/
theorem addWorkdaysAux_sound (cal : Nat → CDate) (settings : WorkdaySettings) :
    ∀ (fuel n start : Nat), 1 ≤ n →
      n ≤ workingDaysAfter cal settings start fuel →
      ∃ d, addWorkdaysAux cal settings fuel n start = some d ∧ start < d ∧
        isNonWorkday (cal d) settings = false
  | 0, n, start => by
      intro h1 h2
      simp [workingDaysAfter] at h2
      omega
  | fuel + 1, n, start => by
      intro h1 h2
      obtain ⟨k, rfl⟩ : ∃ k, n = k + 1 := ⟨n - 1, by omega⟩
      rw [workingDaysAfter] at h2
      rw [addWorkdaysAux]
      by_cases hnw : isNonWorkday (cal (start + 1)) settings = true
      · rw [if_pos hnw]
        rw [if_pos hnw] at h2
        obtain ⟨d, hd, hlt, hw⟩ :=
          addWorkdaysAux_sound cal settings fuel (k + 1) (start + 1)
            (by omega) (by omega)
        exact ⟨d, hd, by omega, hw⟩
      · rw [if_neg hnw]
        rw [if_neg hnw] at h2
        cases k with
        | zero =>
            exact ⟨start + 1, addWorkdaysAux_zero cal settings fuel (start + 1),
              by omega, by simpa using hnw⟩
        | succ j =>
            obtain ⟨d, hd, hlt, hw⟩ :=
              addWorkdaysAux_sound cal settings fuel (j + 1) (start + 1)
                (by omega) (by omega)
            exact ⟨d, hd, by omega, hw⟩

/-- Claim C2: `isNonWorkday` decides by first match in the exact order
working-override, non-working override, Saturday rule, Sunday rule, national
holiday rule, default working; in particular a date in both override sets is
working. -/
theorem isNonWorkday_precedence (d : CDate) (r : WorkdaySettings) :
    (r.customWorkdays.contains d.iso = true → isNonWorkday d r = false) ∧
    (r.customWorkdays.contains d.iso = false →
      r.customHolidays.contains d.iso = true → isNonWorkday d r = true) ∧
    (r.customWorkdays.contains d.iso = false →
      r.customHolidays.contains d.iso = false →
      r.skipSaturday = true → d.isSaturday = true → isNonWorkday d r = true) ∧
    (r.customWorkdays.contains d.iso = false →
      r.customHolidays.contains d.iso = false →
      (r.skipSaturday && d.isSaturday) = false →
      r.skipSunday = true → d.isSunday = true → isNonWorkday d r = true) ∧
    (r.customWorkdays.contains d.iso = false →
      r.customHolidays.contains d.iso = false →
      (r.skipSaturday && d.isSaturday) = false →
      (r.skipSunday && d.isSunday) = false →
      r.skipHolidays = true → isHoliday d = true → isNonWorkday d r = true) ∧
    (r.customWorkdays.contains d.iso = false →
      r.customHolidays.contains d.iso = false →
      (r.skipSaturday && d.isSaturday) = false →
      (r.skipSunday && d.isSunday) = false →
      (r.skipHolidays && isHoliday d) = false → isNonWorkday d r = false) ∧
    (r.customWorkdays.contains d.iso = true →
      r.customHolidays.contains d.iso = true → isNonWorkday d r = false) := by
  refine ⟨?_, ?_, ?_, ?_, ?_, ?_, ?_⟩ <;> intros <;> simp_all [isNonWorkday]

/-- Witness for C2 at the contradictory-override edge case: 2024-01-01 (a
Monday and a national holiday) listed in both override sets is working —
the working override wins. -/
theorem isNonWorkday_precedence_witness :
    isNonWorkday ⟨"2024-01-01", 1, true⟩
      ⟨false, true, true, ["2024-01-01"], ["2024-01-01"], false⟩ = false :=
  (isNonWorkday_precedence ⟨"2024-01-01", 1, true⟩
      ⟨false, true, true, ["2024-01-01"], ["2024-01-01"], false⟩).2.2.2.2.2.2
    (by decide) (by decide)

/-- Claim C9: `addWorkdays(start, 0, rules)` returns `start` unchanged
whatever `start` is; and for `n ≥ 1`, whenever at least `n` working days lie
within the loop's reach (the finitary form of "infinitely many working days
exist"), `addWorkdays(start, n, rules)` terminates at a date strictly after
`start` that is itself a working day — `start` itself is never counted. -/
theorem addWorkdays_spec (cal : Nat → CDate) (settings : WorkdaySettings) :
    (∀ fuel start, addWorkdays cal settings fuel start 0 = some start) ∧
    (∀ fuel n start, 1 ≤ n → n ≤ workingDaysAfter cal settings start fuel →
      ∃ d, addWorkdays cal settings fuel start n = some d ∧ start < d ∧
        isNonWorkday (cal d) settings = false) :=
  ⟨fun fuel start => addWorkdaysAux_zero cal settings fuel start,
   fun fuel n start h1 h2 => addWorkdaysAux_sound cal settings fuel n start h1 h2⟩

/-- Witness for C9: skipping Sundays on a calendar indexed from day 0 (a
Sunday), 3 working days after day 0 is day 3, a working day; and 0 working
days after day 5 is day 5 itself. -/
theorem addWorkdays_spec_witness :
    ((1:Nat) ≤ 3 ∧
      3 ≤ workingDaysAfter (fun i => ⟨"", i % 7, false⟩)
        ⟨false, true, true, [], [], false⟩ 0 10) ∧
    (∃ d, addWorkdays (fun i => ⟨"", i % 7, false⟩)
        ⟨false, true, true, [], [], false⟩ 10 0 3 = some d ∧ 0 < d ∧
        isNonWorkday (⟨"", d % 7, false⟩ : CDate)
          ⟨false, true, true, [], [], false⟩ = false) ∧
    addWorkdays (fun i => ⟨"", i % 7, false⟩)
      ⟨false, true, true, [], [], false⟩ 10 5 0 = some 5 :=
  ⟨⟨by decide, by decide⟩,
   (addWorkdays_spec (fun i => ⟨"", i % 7, false⟩)
      ⟨false, true, true, [], [], false⟩).2 10 3 0 (by decide) (by decide),
   (addWorkdays_spec (fun i => ⟨"", i % 7, false⟩)
      ⟨false, true, true, [], [], false⟩).1 10 5⟩

/-- Claim C4: for `startHour < endHour` the hour grid is exactly
`startHour*60, startHour*60+5, …, endHour*60`, of length
`(endHour-startHour)*12 + 1`, a pure function of its inputs. -/
theorem timeSlots_hour_grid (sh eh : Nat) (h : sh < eh) :
    timeSlots (sh * 60) (eh * 60) =
      (List.range ((eh - sh) * 12 + 1)).map (fun i => sh * 60 + 5 * i) ∧
    (timeSlots (sh * 60) (eh * 60)).length = (eh - sh) * 12 + 1 ∧
    (timeSlots (sh * 60) (eh * 60)).head? = some (sh * 60) ∧
    (timeSlots (sh * 60) (eh * 60)).getLast? = some (eh * 60) := by
  have key : eh * 60 = sh * 60 + 5 * ((eh - sh) * 12) := by omega
  have heq : timeSlots (sh * 60) (eh * 60) =
      (List.range ((eh - sh) * 12 + 1)).map (fun i => sh * 60 + 5 * i) := by
    rw [timeSlots, key, timeSlots_closed_form]
  refine ⟨heq, ?_, ?_, ?_⟩
  · rw [heq]; simp
  · rw [heq, List.range_succ_eq_map]; simp
  · rw [heq, List.getLast?_map, List.range_succ, List.getLast?_concat]
    simp [key]

/-- Writing a scale's entry and reading the same scale back gives the entry. -/
theorem get_setScale_self (s : ScaleBasedSchedule) (sc : ViewScale) (iv : Interval) :
    (s.setScale sc iv).get sc = iv := by
  cases sc <;> rfl

/-- Writing a non-hour scale's entry leaves the hour entry unchanged. -/
theorem hour_setScale_other (s : ScaleBasedSchedule) (sc : ViewScale)
    (iv : Interval) (h : sc ≠ .hour) : (s.setScale sc iv).hour = s.hour := by
  cases sc
  · exact absurd rfl h
  · rfl
  · rfl
  · rfl

/-- A good schedule is good on each scale's resolved interval. -/
theorem goodIv_get (sched : Option ScaleBasedSchedule) (sc : ViewScale)
    (h : goodSched sched) : goodIv ((sched.getD DEFAULT_SCALE_SCHEDULE).get sc) := by
  obtain ⟨h1, h2, h3, h4⟩ := h
  cases sc <;> assumption

/-- Replacing one scale's entry with a good interval keeps the whole
schedule good. -/
theorem goodSched_setScale (sched : Option ScaleBasedSchedule) (sc : ViewScale)
    (iv : Interval) (h : goodSched sched) (hiv : goodIv iv) :
    goodSched (some ((sched.getD DEFAULT_SCALE_SCHEDULE).setScale sc iv)) := by
  obtain ⟨h1, h2, h3, h4⟩ := h
  cases sc
  · exact ⟨hiv, h2, h3, h4⟩
  · exact ⟨h1, hiv, h3, h4⟩
  · exact ⟨h1, h2, hiv, h4⟩
  · exact ⟨h1, h2, h3, hiv⟩

/-- Each of the three drag-frame commits preserves `start ≤ end` on all four
scales, provided the frame's window settings are sane. -/
theorem applyOp_drag_good (sched : Option ScaleBasedSchedule) (op : ChartOp)
    (h : goodSched sched) (hd : op.isDrag = true) (hv : validSettings op.proj) :
    goodSched (applyOp sched op) := by
  cases op with
  | fieldUpd p f v => simp [ChartOp.isDrag] at hd
  | hourEditHours p f hh => simp [ChartOp.isDrag] at hd
  | hourEditMinutes p f m => simp [ChartOp.isDrag] at hd
  | dragMove p idx =>
      have hiv := goodIv_get sched p.viewScale h
      simp only [applyOp]
      apply goodSched_setScale _ _ _ h
      simp only [goodIv, resolveIv] at hiv ⊢
      omega
  | dragResizeStart p idx =>
      simp only [applyOp]
      split
      · next hc =>
          simp only [updateScaleValueTB]
          apply goodSched_setScale _ _ _ h
          have hiv := goodIv_get sched p.viewScale h
          simp only [ChartOp.proj, validSettings] at hv
          simp only [getScaleValue, resolveIv, Interval.fieldVal] at hc
          cases f₀ : (sched.getD DEFAULT_SCALE_SCHEDULE).get p.viewScale with
          | mk a b =>
              rw [f₀] at hiv hc
              simp only [goodIv, Interval.setField, clampVal, f₀] at hc ⊢
              omega
      · exact h
  | dragResizeEnd p idx =>
      simp only [applyOp]
      generalize (if p.viewScale = ViewScale.hour then (5:ℤ) else 1) = inc
      split
      · next hc =>
          simp only [updateScaleValueTB]
          apply goodSched_setScale _ _ _ h
          have hiv := goodIv_get sched p.viewScale h
          simp only [getScaleValue, resolveIv, Interval.fieldVal] at hc
          cases f₀ : (sched.getD DEFAULT_SCALE_SCHEDULE).get p.viewScale with
          | mk a b =>
              rw [f₀] at hiv hc
              simp only [goodIv, Interval.setField, clampVal, f₀] at hc ⊢
              omega
      · exact h

/-- On the hour scale the input minimum is `startMinutes`. -/
theorem getMinValue_hour (p : Project) (hp : p.viewScale = .hour) :
    getMinValue p = p.startMinutes := by
  unfold getMinValue
  rw [hp]
  simp

/-- On the hour scale the input maximum is `endMinutes`. -/
theorem getMaxValue_hour (p : Project) (hp : p.viewScale = .hour) :
    getMaxValue p = p.endMinutes := by
  unfold getMaxValue
  rw [hp]

/-- On the hour scale the drag candidate is `startMinutes + index*5`. -/
theorem candValue_hour (p : Project) (idx : Int) (hp : p.viewScale = .hour) :
    candValue p idx = p.startMinutes + idx * 5 := by
  unfold candValue
  rw [hp]
  simp

/-- On the hour scale the resolved interval is the schedule's hour entry. -/
theorem resolveIv_hour (p : Project) (sched : Option ScaleBasedSchedule)
    (hp : p.viewScale = .hour) :
    resolveIv p sched = (sched.getD DEFAULT_SCALE_SCHEDULE).hour := by
  unfold resolveIv
  rw [hp]
  rfl

/-- `Math.round(m/5)*5` is a multiple of 5. -/
theorem round5_mult5 (m : Int) : round5 m % 5 = 0 :=
  Int.mul_emod_left _ _

/-- `startMinutes = startHour*60` is a multiple of 5. -/
theorem startMinutes_mult5 (p : Project) : p.startMinutes % 5 = 0 := by
  unfold Project.startMinutes
  omega

/-- `endMinutes = endHour*60` is a multiple of 5. -/
theorem endMinutes_mult5 (p : Project) : p.endMinutes % 5 = 0 := by
  unfold Project.endMinutes
  omega

/-- Writing an hour entry with multiple-of-5 fields establishes the grid
invariant. -/
theorem hourMult5_setScale_hour (sched : Option ScaleBasedSchedule)
    (iv : Interval) (h1 : iv.start % 5 = 0) (h2 : iv.endV % 5 = 0) :
    hourMult5 (some ((sched.getD DEFAULT_SCALE_SCHEDULE).setScale .hour iv)) :=
  ⟨h1, h2⟩

/-- Writing any non-hour entry leaves the hour grid invariant untouched. -/
theorem hourMult5_setScale_other (sched : Option ScaleBasedSchedule)
    (sc : ViewScale) (iv : Interval) (hsc : sc ≠ .hour) (h : hourMult5 sched) :
    hourMult5 (some ((sched.getD DEFAULT_SCALE_SCHEDULE).setScale sc iv)) := by
  have e := hour_setScale_other (sched.getD DEFAULT_SCALE_SCHEDULE) sc iv hsc
  exact ⟨by rw [Option.getD_some, e]; exact h.1,
    by rw [Option.getD_some, e]; exact h.2⟩

/-- Every commit path keeps both hour fields on the 5-minute grid: the time
form rounds before clamping, the drag candidates are generated on the grid,
and day-based edits never touch the hour entry. -/
theorem applyOp_hourMult5 (sched : Option ScaleBasedSchedule) (op : ChartOp)
    (h : hourMult5 sched) (hok : op.scaleOk = true) :
    hourMult5 (applyOp sched op) := by
  obtain ⟨ha, hb⟩ := h
  cases op with
  | fieldUpd p f v =>
      have hp : p.viewScale ≠ .hour := by
        simpa [ChartOp.scaleOk] using hok
      simp only [applyOp, updateScaleValueCC]
      exact hourMult5_setScale_other _ _ _ hp ⟨ha, hb⟩
  | hourEditHours p f hh =>
      simp only [applyOp, updateScaleValueCC]
      by_cases hp : p.viewScale = .hour
      · rw [hp]
        apply hourMult5_setScale_hour
        all_goals
          have h5s := startMinutes_mult5 p
          have h5e := endMinutes_mult5 p
          have hr5 := round5_mult5
            (minutesToHoursAndMinutes (getScaleValue p sched f)).2
          cases f <;>
            simp only [Interval.setField, hoursAndMinutesToMinutes, clampVal,
              ScaleBasedSchedule.get] <;>
            omega
      · exact hourMult5_setScale_other _ _ _ hp ⟨ha, hb⟩
  | hourEditMinutes p f m =>
      simp only [applyOp, updateScaleValueCC]
      by_cases hp : p.viewScale = .hour
      · rw [hp]
        apply hourMult5_setScale_hour
        all_goals
          have h5s := startMinutes_mult5 p
          have h5e := endMinutes_mult5 p
          have hr5 := round5_mult5 (clampVal 0 55 (round5 m))
          cases f <;>
            simp only [Interval.setField, hoursAndMinutesToMinutes, clampVal,
              ScaleBasedSchedule.get] at hr5 ⊢ <;>
            omega
      · exact hourMult5_setScale_other _ _ _ hp ⟨ha, hb⟩
  | dragMove p idx =>
      simp only [applyOp]
      by_cases hp : p.viewScale = .hour
      · rw [hp, resolveIv_hour p sched hp, getMinValue_hour p hp,
          getMaxValue_hour p hp, candValue_hour p idx hp]
        apply hourMult5_setScale_hour
        all_goals
          have h5s := startMinutes_mult5 p
          have h5e := endMinutes_mult5 p
          simp only [clampVal]
          omega
      · exact hourMult5_setScale_other _ _ _ hp ⟨ha, hb⟩
  | dragResizeStart p idx =>
      simp only [applyOp]
      split
      · simp only [updateScaleValueTB]
        by_cases hp : p.viewScale = .hour
        · rw [hp, getMinValue_hour p hp, getMaxValue_hour p hp,
            candValue_hour p idx hp]
          apply hourMult5_setScale_hour
          all_goals
            have h5s := startMinutes_mult5 p
            have h5e := endMinutes_mult5 p
            simp only [Interval.setField, clampVal, ScaleBasedSchedule.get]
            omega
        · exact hourMult5_setScale_other _ _ _ hp ⟨ha, hb⟩
      · exact ⟨ha, hb⟩
  | dragResizeEnd p idx =>
      simp only [applyOp]
      by_cases hp : p.viewScale = .hour
      · rw [if_pos hp]
        split
        · simp only [updateScaleValueTB]
          rw [hp, getMinValue_hour p hp, getMaxValue_hour p hp,
            candValue_hour p idx hp]
          apply hourMult5_setScale_hour
          all_goals
            have h5s := startMinutes_mult5 p
            have h5e := endMinutes_mult5 p
            simp only [Interval.setField, clampVal, ScaleBasedSchedule.get]
            omega
        · exact ⟨ha, hb⟩
      · rw [if_neg hp]
        split
        · simp only [updateScaleValueTB]
          exact hourMult5_setScale_other _ _ _ hp ⟨ha, hb⟩
        · exact ⟨ha, hb⟩

/-- Claim C3 counterexample: the hour-scale clamp of `updateScaleValue`
(TaskBar) only bounds the value to `[startMinutes, endMinutes]` — the raw
value 483 (default 8–18 window) is committed as 483, while the claimed
round-then-bound policy would give 485; so the update itself does not round
to the nearest multiple of 5. -/
theorem hourClamp_does_not_round :
    getScaleValue ⟨.hour, none, none⟩
      (updateScaleValueTB ⟨.hour, none, none⟩ none .fStart 483) .fStart = 483 ∧
    specHourClamp ⟨.hour, none, none⟩ 483 = 485 ∧
    ¬ ((483 : Int) % 5 = 0) :=
  ⟨by decide, by decide, by decide⟩

/-- Claim C3 (amended): the Hour clamp of `update` only bounds the value to
`[startHour*60, endHour*60]`; rounding to the 5-minute grid happens in the
callers (the time form via `hoursAndMinutesToMinutes`, the drags by grid
construction), so along every UI commit path both fields of the resolved
Hour interval stay multiples of 5 — day-based number edits never touching
the hour entry. -/
theorem hourFields_stay_mult5 (ops : List ChartOp)
    (s0 : Option ScaleBasedSchedule) (h0 : hourMult5 s0)
    (hops : ∀ op ∈ ops, op.scaleOk = true) :
    hourMult5 (ops.foldl applyOp s0) := by
  induction ops generalizing s0 with
  | nil => exact h0
  | cons op ops ih =>
      rw [List.foldl_cons]
      exact ih (applyOp s0 op)
        (applyOp_hourMult5 s0 op h0 (hops op (by simp)))
        (fun o ho => hops o (by simp [ho]))

/-- Witness for the amended C3: a mixed sequence — an hour form edit, a
move drag on the hour scale and a day-scale number edit — keeps both hour
fields on the 5-minute grid. -/
theorem hourFields_stay_mult5_witness :
    hourMult5 (List.foldl applyOp none
      [ChartOp.hourEditMinutes ⟨.hour, none, none⟩ .fStart 12,
       ChartOp.dragMove ⟨.hour, none, none⟩ 3,
       ChartOp.fieldUpd ⟨.day, none, none⟩ .fEnd 6]) :=
  hourFields_stay_mult5 _ none (by decide) (by decide)

/-- Claim C1 counterexample: on a day-scale project with the default 7-day
window, a single start-field edit to 5 on the default interval {1,3} is
committed unchanged (5 lies inside [1,7]) and leaves start = 5 > 3 = end, so
the single-field update operation does not preserve `start ≤ end`. -/
theorem singleFieldUpdate_breaks_order :
    goodSched (none : Option ScaleBasedSchedule) ∧
    getScaleValue ⟨.day, none, none⟩
      (applyOp none (.fieldUpd ⟨.day, none, none⟩ .fStart 5)) .fStart = 5 ∧
    getScaleValue ⟨.day, none, none⟩
      (applyOp none (.fieldUpd ⟨.day, none, none⟩ .fStart 5)) .fEnd = 3 ∧
    ¬ goodSched (applyOp none (.fieldUpd ⟨.day, none, none⟩ .fStart 5)) :=
  ⟨by decide, by decide, by decide, by decide⟩

/-- Claim C1 (amended): starting from an absent schedule (defaults apply) or
one satisfying `start ≤ end` on every scale, any sequence of InteractionController
commits — move-drag, resize-start and resize-end frames — preserves
`start ≤ end` on all four scales, each frame's window settings being sane;
single-field updates only clamp to the scale range and are excluded (they can
break the ordering, see the counterexample). -/
theorem dragOps_preserve_order (ops : List ChartOp) (s0 : Option ScaleBasedSchedule)
    (h0 : goodSched s0)
    (hops : ∀ op ∈ ops, op.isDrag = true ∧ validSettings op.proj) :
    goodSched (ops.foldl applyOp s0) := by
  induction ops generalizing s0 with
  | nil => exact h0
  | cons op ops ih =>
      rw [List.foldl_cons]
      exact ih (applyOp s0 op)
        (applyOp_drag_good s0 op h0 (hops op (by simp)).1 (hops op (by simp)).2)
        (fun o ho => hops o (by simp [ho]))

/-- Witness for the amended C1: a concrete three-frame gesture sequence over
default windows keeps every scale ordered. -/
theorem dragOps_preserve_order_witness :
    goodSched (List.foldl applyOp none
      [ChartOp.dragMove ⟨.day, none, none⟩ 5,
       ChartOp.dragResizeEnd ⟨.day, none, none⟩ 5,
       ChartOp.dragResizeStart ⟨.hour, none, none⟩ 2]) :=
  dragOps_preserve_order _ none (by decide) (by decide)

/-- Witness for C4 at the default window 8:00–18:00: 121 slots, first 480,
last 1080. -/
theorem timeSlots_hour_grid_witness :
    (timeSlots 480 1080).length = (18 - 8) * 12 + 1 ∧
    (timeSlots 480 1080).head? = some 480 ∧
    (timeSlots 480 1080).getLast? = some 1080 :=
  ⟨(timeSlots_hour_grid 8 18 (by decide)).2.1,
   (timeSlots_hour_grid 8 18 (by decide)).2.2.1,
   (timeSlots_hour_grid 8 18 (by decide)).2.2.2⟩

/-- Claim C7: a Move frame preserves the captured duration
`end - start`, commits `newStart = clamp(candidate, [minValue,
maxValue - duration])` and `newEnd = newStart + duration`, both fields
written together, so `start ≤ end` holds at every intermediate frame. -/
theorem moveDrag_frame (p : Project) (sched : Option ScaleBasedSchedule)
    (idx : Int) (h : goodIv (resolveIv p sched)) :
    (resolveIv p (applyOp sched (.dragMove p idx))).start =
      clampVal (getMinValue p)
        (getMaxValue p - ((resolveIv p sched).endV - (resolveIv p sched).start))
        (candValue p idx) ∧
    (resolveIv p (applyOp sched (.dragMove p idx))).endV -
        (resolveIv p (applyOp sched (.dragMove p idx))).start =
      (resolveIv p sched).endV - (resolveIv p sched).start ∧
    (resolveIv p (applyOp sched (.dragMove p idx))).start ≤
      (resolveIv p (applyOp sched (.dragMove p idx))).endV := by
  simp only [goodIv, resolveIv] at h
  simp only [applyOp, resolveIv, Option.getD_some]
  rw [get_setScale_self]
  refine ⟨rfl, ?_, ?_⟩
  · dsimp only
    omega
  · dsimp only
    simp only [clampVal]
    omega

/-- Witness for C7 at the spec's scenario: Day-scale interval {2,4}, window
length 7, candidate start 6 (cell index 5) commits {5,7}. -/
theorem moveDrag_frame_witness :
    (resolveIv ⟨.day, none, none⟩
      (applyOp (some { DEFAULT_SCALE_SCHEDULE with day := ⟨2, 4⟩ })
        (.dragMove ⟨.day, none, none⟩ 5))).start = 5 ∧
    (resolveIv ⟨.day, none, none⟩
      (applyOp (some { DEFAULT_SCALE_SCHEDULE with day := ⟨2, 4⟩ })
        (.dragMove ⟨.day, none, none⟩ 5))).endV = 7 := by
  obtain ⟨h1, h2, h3⟩ := moveDrag_frame ⟨.day, none, none⟩
    (some { DEFAULT_SCALE_SCHEDULE with day := ⟨2, 4⟩ }) 5 (by decide)
  have e1 : (resolveIv ⟨.day, none, none⟩
      (some { DEFAULT_SCALE_SCHEDULE with day := ⟨2, 4⟩ })).endV = 4 := by decide
  have e2 : (resolveIv ⟨.day, none, none⟩
      (some { DEFAULT_SCALE_SCHEDULE with day := ⟨2, 4⟩ })).start = 2 := by decide
  have h1' : (resolveIv ⟨.day, none, none⟩
      (applyOp (some { DEFAULT_SCALE_SCHEDULE with day := ⟨2, 4⟩ })
        (.dragMove ⟨.day, none, none⟩ 5))).start = 5 := by
    rw [h1]
    decide
  exact ⟨h1', by omega⟩

/-- Claim C8: a ResizeStart frame commits the candidate as the new start
exactly when `candidate < current end` and `candidate ≥ minValue`; a
ResizeEnd frame adds the scale's minimum unit (5 on the hour scale, else 1)
and commits the sum as the new end exactly when the sum exceeds the current
start and does not exceed `maxValue`; in every other case the frame leaves
the schedule exactly unchanged (no error signal, no partial update).  The
commit-the-candidate equalities assume the current resolved interval lies
within the scale bounds (the ScaleInterval invariant of §3), under which the
TaskBar clamp is the identity on the accepted value. -/
theorem resizeFrames_spec (p : Project) (sched : Option ScaleBasedSchedule)
    (idx : Int) :
    (candValue p idx < (resolveIv p sched).endV →
      getMinValue p ≤ candValue p idx →
      (resolveIv p sched).endV ≤ getMaxValue p →
      resolveIv p (applyOp sched (.dragResizeStart p idx)) =
        { start := candValue p idx, endV := (resolveIv p sched).endV }) ∧
    (¬ (candValue p idx < (resolveIv p sched).endV ∧
        getMinValue p ≤ candValue p idx) →
      applyOp sched (.dragResizeStart p idx) = sched) ∧
    ((resolveIv p sched).start <
        candValue p idx + (if p.viewScale = .hour then 5 else 1) →
      candValue p idx + (if p.viewScale = .hour then 5 else 1) ≤ getMaxValue p →
      getMinValue p ≤ (resolveIv p sched).start →
      resolveIv p (applyOp sched (.dragResizeEnd p idx)) =
        { start := (resolveIv p sched).start,
          endV := candValue p idx + (if p.viewScale = .hour then 5 else 1) }) ∧
    (¬ ((resolveIv p sched).start <
          candValue p idx + (if p.viewScale = .hour then 5 else 1) ∧
        candValue p idx + (if p.viewScale = .hour then 5 else 1) ≤ getMaxValue p) →
      applyOp sched (.dragResizeEnd p idx) = sched) := by
  refine ⟨?_, ?_, ?_, ?_⟩
  · intro h1 h2 h3
    simp only [applyOp]
    rw [if_pos ⟨h1, h2⟩]
    simp only [updateScaleValueTB, resolveIv, Option.getD_some]
    rw [get_setScale_self]
    simp only [Interval.setField, Interval.mk.injEq]
    refine ⟨?_, trivial⟩
    simp only [resolveIv] at h1 h3
    simp only [clampVal]
    omega
  · intro hn
    simp only [applyOp, getScaleValue, Interval.fieldVal]
    rw [if_neg hn]
  · intro h1 h2 h3
    simp only [applyOp]
    rw [if_pos ⟨h1, h2⟩]
    simp only [updateScaleValueTB, resolveIv, Option.getD_some]
    rw [get_setScale_self]
    simp only [Interval.setField, Interval.mk.injEq]
    refine ⟨trivial, ?_⟩
    simp only [resolveIv] at h1 h2 h3
    simp only [clampVal]
    omega
  · intro hn
    simp only [applyOp, getScaleValue, Interval.fieldVal]
    rw [if_neg hn]

/-- Witness for C8: on the Day scale with interval {2,4} and window 7, a
resize-start frame with candidate 1 commits {1,4}, and one with candidate 6
(≥ current end) is skipped, leaving the schedule exactly unchanged. -/
theorem resizeFrames_spec_witness :
    resolveIv ⟨.day, none, none⟩
      (applyOp (some { DEFAULT_SCALE_SCHEDULE with day := ⟨2, 4⟩ })
        (.dragResizeStart ⟨.day, none, none⟩ 0)) = ⟨1, 4⟩ ∧
    applyOp (some { DEFAULT_SCALE_SCHEDULE with day := ⟨2, 4⟩ })
        (.dragResizeStart ⟨.day, none, none⟩ 5) =
      some { DEFAULT_SCALE_SCHEDULE with day := ⟨2, 4⟩ } :=
  ⟨(resizeFrames_spec ⟨.day, none, none⟩
      (some { DEFAULT_SCALE_SCHEDULE with day := ⟨2, 4⟩ }) 0).1
      (by decide) (by decide) (by decide),
   (resizeFrames_spec ⟨.day, none, none⟩
      (some { DEFAULT_SCALE_SCHEDULE with day := ⟨2, 4⟩ }) 5).2.1
      (by decide)⟩

/-- Width floor helper: with a positive cell width the `max 1` duration
floor keeps the width at least `cellWidth - gap`. -/
theorem width_floor (d cw g : ℚ) (hcw : 0 < cw) :
    cw - g ≤ max 1 d * cw - g := by
  nlinarith [le_max_left (1:ℚ) d]

/-- Width floor for the `Math.max(duration, 1)` argument order. -/
theorem width_floor' (d cw g : ℚ) (hcw : 0 < cw) :
    cw - g ≤ max d 1 * cw - g := by
  nlinarith [le_max_right d (1:ℚ)]

/-- Offset clamped at zero times a nonnegative cell width is nonnegative. -/
theorem offset_nonneg (x cw : ℚ) (hcw : 0 ≤ cw) : 0 ≤ max 0 x * cw :=
  mul_nonneg (le_max_left 0 x) hcw

/-- Claim C5 counterexample: the ChartCalendar view does not clamp the
offset at zero — on the hour scale with `startMinutes = 480`, cell width 24
and a stored start of 400, its bar is placed at left = −384 < 0, while
TaskBar's formula gives 0 for the same inputs. -/
theorem chartCalendar_offset_negative :
    (getTaskBarStyleCC .hour 480 24 400 540).left = -384 ∧
    (getBarPositionTB .hour 480 24 400 540).left = 0 ∧
    (getTaskBarStyleCC .hour 480 24 400 540).left < 0 := by
  refine ⟨?_, ?_, ?_⟩ <;>
    norm_num [getTaskBarStyleCC, getBarPositionTB]

/-- Claim C5 (amended): TaskBar and PrintPreview compute
`offset = max(0, startOffset) * cellWidth` (gap 4 and 2 respectively) so
their offsets are never negative; ChartCalendar uses the same per-scale
arithmetic but without the `max(0, ·)` clamp, so its offset can be negative;
in all three views `width = max(1, duration) * cellWidth - gap`, hence at
least `cellWidth - gap` even for zero or negative durations. -/
theorem geometry_views (scale : ViewScale) (sM cw sV eV : ℚ) (hcw : 0 < cw) :
    (getBarPositionTB scale sM cw sV eV).left =
      max 0 (specOffset scale sM sV) * cw ∧
    (getBarPositionTB scale sM cw sV eV).width =
      max 1 (specDuration scale sV eV) * cw - 4 ∧
    (getTaskBarStylePP scale sM cw sV eV).left =
      max 0 (specOffset scale sM sV) * cw ∧
    (getTaskBarStylePP scale sM cw sV eV).width =
      max 1 (specDuration scale sV eV) * cw - 2 ∧
    (getTaskBarStyleCC scale sM cw sV eV).left = specOffset scale sM sV * cw ∧
    (getTaskBarStyleCC scale sM cw sV eV).width =
      max 1 (specDuration scale sV eV) * cw - 4 ∧
    0 ≤ (getBarPositionTB scale sM cw sV eV).left ∧
    0 ≤ (getTaskBarStylePP scale sM cw sV eV).left ∧
    cw - 4 ≤ (getBarPositionTB scale sM cw sV eV).width ∧
    cw - 4 ≤ (getTaskBarStyleCC scale sM cw sV eV).width ∧
    cw - 2 ≤ (getTaskBarStylePP scale sM cw sV eV).width := by
  refine ⟨?_, ?_, ?_, ?_, ?_, ?_, ?_, ?_, ?_, ?_, ?_⟩
  · cases scale <;> rfl
  · cases scale <;> rfl
  · cases scale <;> rfl
  · cases scale <;> rfl
  · cases scale <;> rfl
  · cases scale <;>
      simp [getTaskBarStyleCC, specDuration, max_comm]
  · cases scale <;> exact offset_nonneg _ _ hcw.le
  · cases scale <;> exact offset_nonneg _ _ hcw.le
  · cases scale <;> exact width_floor _ _ _ hcw
  · cases scale <;> exact width_floor' _ _ _ hcw
  · cases scale <;> exact width_floor _ _ _ hcw

/-- Witness for the amended C5 at day scale, cell width 32, interval {2,4}:
nonnegative offset and width floors hold. -/
theorem geometry_views_witness :
    0 ≤ (getBarPositionTB .day 0 32 2 4).left ∧
    (32:ℚ) - 4 ≤ (getBarPositionTB .day 0 32 2 4).width ∧
    (32:ℚ) - 2 ≤ (getTaskBarStylePP .day 0 32 2 4).width :=
  ⟨(geometry_views .day 0 32 2 4 (by decide)).2.2.2.2.2.2.1,
   (geometry_views .day 0 32 2 4 (by decide)).2.2.2.2.2.2.2.2.1,
   (geometry_views .day 0 32 2 4 (by decide)).2.2.2.2.2.2.2.2.2.2⟩

/-- On the day-based scales the drag candidate is `index + 1`. -/
theorem candValue_other (p : Project) (idx : Int) (hp : p.viewScale ≠ .hour) :
    candValue p idx = idx + 1 := by
  unfold candValue
  rw [if_neg hp]

/-- Claim C6: round-trip — for an interval whose start is within the scale
bounds (and on the 5-minute grid for the hour scale) and a positive cell
width, `fromPosition` applied to the `toGeometry` offset recovers exactly
`interval.start`. -/
theorem fromPosition_roundtrip (p : Project) (iv : Interval) (cw : ℚ)
    (hcw : 0 < cw) :
    (p.viewScale = .hour → p.startMinutes ≤ iv.start →
      iv.start ≤ p.endMinutes → iv.start % 5 = 0 →
      fromPosition p
        ((getBarPositionTB p.viewScale ((p.startMinutes : ℤ) : ℚ) cw
          ((iv.start : ℤ) : ℚ) ((iv.endV : ℤ) : ℚ)).left) cw = iv.start) ∧
    (p.viewScale ≠ .hour → 1 ≤ iv.start → iv.start ≤ getMaxValue p →
      fromPosition p
        ((getBarPositionTB p.viewScale ((p.startMinutes : ℤ) : ℚ) cw
          ((iv.start : ℤ) : ℚ) ((iv.endV : ℤ) : ℚ)).left) cw = iv.start) := by
  constructor
  · intro hp h1 h2 h5
    have hm5 := startMinutes_mult5 p
    obtain ⟨k, hk⟩ : ∃ k : ℤ, iv.start - p.startMinutes = 5 * k :=
      ⟨(iv.start - p.startMinutes) / 5, by omega⟩
    have hk0 : (0:ℚ) ≤ (k : ℚ) := by
      have : (0:ℤ) ≤ k := by omega
      exact_mod_cast this
    rw [hp]
    have hoff : (getBarPositionTB .hour ((p.startMinutes : ℤ) : ℚ) cw
        ((iv.start : ℤ) : ℚ) ((iv.endV : ℤ) : ℚ)).left = (k : ℚ) * cw := by
      show max 0 ((((iv.start : ℤ) : ℚ) - ((p.startMinutes : ℤ) : ℚ)) / 5) * cw
        = (k : ℚ) * cw
      have hq : (((iv.start : ℤ) : ℚ) - ((p.startMinutes : ℤ) : ℚ)) / 5
          = (k : ℚ) := by
        rw [div_eq_iff (by norm_num : (5:ℚ) ≠ 0)]
        exact_mod_cast (by omega : iv.start - p.startMinutes = k * 5)
      rw [hq, max_eq_right hk0]
    rw [hoff]
    simp only [fromPosition, cellIndexOf,
      mul_div_cancel_right₀ _ (ne_of_gt hcw), Int.floor_intCast,
      candValue_hour p k hp]
    omega
  · intro hp h1 h2
    have hl : (getBarPositionTB p.viewScale ((p.startMinutes : ℤ) : ℚ) cw
        ((iv.start : ℤ) : ℚ) ((iv.endV : ℤ) : ℚ)).left =
        ((iv.start - 1 : ℤ) : ℚ) * cw := by
      cases hvs : p.viewScale
      case hour => exact absurd hvs hp
      all_goals
        show max 0 (((iv.start : ℤ) : ℚ) - 1) * cw = ((iv.start - 1 : ℤ) : ℚ) * cw
        rw [max_eq_right (by
          rw [sub_nonneg]
          exact_mod_cast h1)]
        congr 1
        push_cast
        ring
    rw [hl]
    simp only [fromPosition, cellIndexOf,
      mul_div_cancel_right₀ _ (ne_of_gt hcw), Int.floor_intCast,
      candValue_other p (iv.start - 1) hp]
    omega

/-- Witness for C6: hour scale at start 485 (cell width 24) and day scale at
start 2 (cell width 32) both round-trip through the bar offset. -/
theorem fromPosition_roundtrip_witness :
    fromPosition ⟨.hour, none, none⟩
      ((getBarPositionTB .hour ((480 : ℤ) : ℚ) 24 ((485 : ℤ) : ℚ)
        ((540 : ℤ) : ℚ)).left) 24 = 485 ∧
    fromPosition ⟨.day, none, none⟩
      ((getBarPositionTB .day ((480 : ℤ) : ℚ) 32 ((2 : ℤ) : ℚ)
        ((4 : ℤ) : ℚ)).left) 32 = 2 := by
  constructor
  · exact (fromPosition_roundtrip ⟨.hour, none, none⟩ ⟨485, 540⟩ 24
      (by decide)).1 rfl (by decide) (by decide) (by decide)
  · exact (fromPosition_roundtrip ⟨.day, none, none⟩ ⟨2, 4⟩ 32
      (by decide)).2 (by decide) (by decide) (by decide)

/-- Claim C10 counterexample: a last task whose stored hour end is 0 is
treated like an absent schedule by the JavaScript `||` (0 is falsy): the new
task's hour interval starts at the default 540, not at e = 0 as the claim's
"e is the last existing task's Hour-scale end" states. -/
theorem addTask_zero_end_falsy :
    handleAddTaskSchedule ⟨.hour, none, none⟩
      [⟨some { DEFAULT_SCALE_SCHEDULE with hour := ⟨480, 0⟩ }⟩] =
      some { DEFAULT_SCALE_SCHEDULE with hour := ⟨540, 600⟩ } ∧
    ((⟨some { DEFAULT_SCALE_SCHEDULE with hour := ⟨480, 0⟩ }⟩ :
        Task).scaleSchedule.getD DEFAULT_SCALE_SCHEDULE).hour.endV = 0 ∧
    (540 : Int) ≠ 0 :=
  ⟨by decide, by decide, by decide⟩

/-- Claim C10 (amended): on the hour scale with at least one existing task,
the new task's schedule is the built-in defaults with hour interval
{e, e+60}, where e is the last task's hour end when that end is nonzero and
the default 540 when the schedule is absent or the end is zero (zero being
falsy in JavaScript); e+60 is committed without clamping to `endHour*60`.
On any other scale, or with no existing task, no schedule is created and
every scale resolves to the built-in default. -/
theorem handleAddTask_spec (p : Project) (tasks : List Task) :
    (∀ lastTask, p.viewScale = .hour → tasks.getLast? = some lastTask →
      handleAddTaskSchedule p tasks =
        some { DEFAULT_SCALE_SCHEDULE with
          hour := ⟨(if (lastTask.scaleSchedule.getD
                DEFAULT_SCALE_SCHEDULE).hour.endV = 0 then 540 else
                (lastTask.scaleSchedule.getD DEFAULT_SCALE_SCHEDULE).hour.endV),
            (if (lastTask.scaleSchedule.getD
                DEFAULT_SCALE_SCHEDULE).hour.endV = 0 then 540 else
                (lastTask.scaleSchedule.getD DEFAULT_SCALE_SCHEDULE).hour.endV)
              + 60⟩ }) ∧
    (p.viewScale ≠ .hour → handleAddTaskSchedule p tasks = none) ∧
    (tasks = [] → handleAddTaskSchedule p tasks = none) ∧
    (∀ sc : ViewScale, resolveIv { p with viewScale := sc } none =
      DEFAULT_SCALE_SCHEDULE.get sc) := by
  refine ⟨?_, ?_, ?_, fun sc => rfl⟩
  · intro lastTask hp hl
    unfold handleAddTaskSchedule
    rw [hp, hl]
    rfl
  · intro hp
    unfold handleAddTaskSchedule
    rcases hl : tasks.getLast? with _ | t <;> rcases hvs : p.viewScale <;>
      first
      | exact absurd hvs hp
      | rfl
  · intro ht
    subst ht
    unfold handleAddTaskSchedule
    rcases hvs : p.viewScale <;> rfl

/-- Witness for the amended C10: last task ending at 720 yields {720, 780};
a day-scale project or an empty task list yields no schedule. -/
theorem handleAddTask_spec_witness :
    handleAddTaskSchedule ⟨.hour, none, none⟩
      [⟨some { DEFAULT_SCALE_SCHEDULE with hour := ⟨600, 720⟩ }⟩] =
      some { DEFAULT_SCALE_SCHEDULE with hour := ⟨720, 780⟩ } ∧
    handleAddTaskSchedule ⟨.day, none, none⟩ [⟨none⟩] = none ∧
    handleAddTaskSchedule ⟨.hour, none, none⟩ [] = none := by
  refine ⟨?_, ?_, ?_⟩
  · have h := (handleAddTask_spec ⟨.hour, none, none⟩
      [⟨some { DEFAULT_SCALE_SCHEDULE with hour := ⟨600, 720⟩ }⟩]).1
      ⟨some { DEFAULT_SCALE_SCHEDULE with hour := ⟨600, 720⟩ }⟩ rfl rfl
    rw [h]
    decide
  · exact (handleAddTask_spec ⟨.day, none, none⟩ [⟨none⟩]).2.1 (by decide)
  · exact (handleAddTask_spec ⟨.hour, none, none⟩ []).2.2.1 rfl

end Gantt
